import Mathlib

/-!
Verification development for the CodeSync server (src/server/index.js).

The file shallowly embeds the two cores of the server:

* the ProcessSupervisor (`limitedSpawn`) together with the four language
  adapters (`runJavaScript`, `runPython`, `runJava`, `runCpp`) and the
  `run-code` dispatch, and
* the Session Coordinator: the in-memory room registry (`rooms`), the
  per-connection transport membership kept by the socket layer, and the
  socket event handlers (`joinRoom`, `codeChange`, `languageChange`,
  `disconnectHandler`, the periodic `cleanupInactiveRooms` sweep).

JavaScript `Map`s are modelled as association lists with the usual
first-match lookup (`mapGet`), in-place update (`mapSet`) and deletion
(`mapDel`); insertion order is preserved exactly as a JS `Map` does.
Byte buffers are modelled as `List Char` (one list element per byte of
the source's `Buffer`s), converted to `String` at the supervisor's
`close` boundary exactly where the source calls `toString('utf8')`.
Wall-clock time is a `Nat` of milliseconds.

The child process observed by `limitedSpawn` is modelled by
`ChildBehavior`: either the `spawn` call fails with an error code
(Node emits `error` and then `close` with a `null` exit code), or the
child, left alone, would produce a time-stamped sequence of stream
chunks and then exit.  A `SIGKILL` issued by the supervisor is taken to
be immediate: chunks after the kill do not arrive, and the `close`
event reports a `null` exit code with the kill signal.
-/

namespace CodeSync

/-! ### Association-list model of JavaScript `Map` -/

def mapGet {α : Type} : List (String × α) → String → Option α
  | [], _ => none
  | (k, v) :: t, key => if k = key then some v else mapGet t key

def mapSet {α : Type} : List (String × α) → String → α → List (String × α)
  | [], key, val => [(key, val)]
  | (k, v) :: t, key, val =>
      if k = key then (key, val) :: t else (k, v) :: mapSet t key val

def mapDel {α : Type} : List (String × α) → String → List (String × α)
  | [], _ => []
  | (k, v) :: t, key => if k = key then t else (k, v) :: mapDel t key

/-- `Array.from(m.values())` for the association-list model of a JS `Map`. -/
def mapValues {α : Type} (l : List (String × α)) : List α :=
  l.map (fun e => e.2)

/-- Pointwise update of the entry stored under `k`, leaving other
entries alone (used for the transport-room rewrite of a socket). -/
def mapAdjust {α : Type} (l : List (String × α)) (k : String) (f : α → α) :
    List (String × α) :=
  l.map (fun e => if e.1 = k then (e.1, f e.2) else e)

/-! ### ProcessSupervisor: `limitedSpawn` (src/server/index.js lines 326-408)

`EXECUTION_TIMEOUT_MS` and `MAX_OUTPUT_BYTES` are the constants of
lines 326-327.  A stream `data` handler (lines 362-382) appends the
chunk to the stream's buffer; the first chunk that would push the
buffer past `MAX_OUTPUT_BYTES` is sliced to the remaining budget
(`Math.max(0, MAX_OUTPUT_BYTES - buffer.length)`, which is exactly
truncated `Nat` subtraction), `outputTruncated` is set and the child is
killed with `SIGKILL`.  The timeout armed at spawn (lines 357-360) is
modelled by treating any event time-stamped at or after
`EXECUTION_TIMEOUT_MS` as preceded by the timer callback, which sets
`timedOut` and kills the child. -/

def EXECUTION_TIMEOUT_MS : Nat := 5000

def MAX_OUTPUT_BYTES : Nat := 64 * 1024

inductive StreamTag where
  | stdoutStream
  | stderrStream
deriving DecidableEq

/-- One `data` event of the child: arrival time in ms after spawn, the
stream it arrives on, and its bytes. -/
structure Chunk where
  t : Nat
  tag : StreamTag
  data : List Char
deriving DecidableEq

/-- What the spawned child would do if left alone: either the spawn
itself fails with an error code (`err.code`, e.g. `"ENOENT"`), or the
child emits `chunks` and then exits at `exitTime` with `exitCode`. -/
inductive ChildBehavior where
  | spawnFail (errCode : String)
  | run (chunks : List Chunk) (exitTime : Nat) (exitCode : Int)

/-- The payload resolved by `limitedSpawn`'s `close` handler
(lines 396-406). -/
structure ExecResult where
  exitCode : Option Int
  signal : Option String
  stdout : String
  stderr : String
  timedOut : Bool
  outputTruncated : Bool
  spawnError : Option String
deriving DecidableEq

/-- The supervisor's mutable locals while the child runs. -/
structure SupState where
  stdoutBuf : List Char
  stderrBuf : List Char
  outputTruncated : Bool
  timedOut : Bool
  killed : Bool
deriving DecidableEq

def initSup : SupState :=
  { stdoutBuf := [], stderrBuf := [], outputTruncated := false,
    timedOut := false, killed := false }

/-- The body of a stream `data` handler: append the chunk, truncating
to the remaining budget when the buffer would overflow.  Returns the
new buffer and whether the overflow branch was taken. -/
def capAppend (buf chunk : List Char) : List Char × Bool :=
  if MAX_OUTPUT_BYTES < buf.length + chunk.length then
    (buf ++ chunk.take (MAX_OUTPUT_BYTES - buf.length), true)
  else
    (buf ++ chunk, false)

/-- Process one child event.  A killed child emits nothing further; a
chunk stamped at or after the timeout deadline is preceded by the timer
callback (lines 357-360), which marks `timedOut` and kills the child. -/
def stepChunk (s : SupState) (c : Chunk) : SupState :=
  if s.killed then s
  else if EXECUTION_TIMEOUT_MS ≤ c.t then
    { s with timedOut := true, killed := true }
  else
    match c.tag with
    | .stdoutStream =>
        let r := capAppend s.stdoutBuf c.data
        if r.2 then
          { s with stdoutBuf := r.1, outputTruncated := true, killed := true }
        else
          { s with stdoutBuf := r.1 }
    | .stderrStream =>
        let r := capAppend s.stderrBuf c.data
        if r.2 then
          { s with stderrBuf := r.1, outputTruncated := true, killed := true }
        else
          { s with stderrBuf := r.1 }

/-- `limitedSpawn` (lines 338-408) as a function of the child's
behavior.  On a spawn failure Node fires `error` (recording
`spawnError`) and then `close` with a `null` code.  Otherwise the
chunks are folded through the data handlers; if the child was killed
(overflow or timeout) `close` reports a `null` code and `SIGKILL`, if
the natural exit would land at or after the deadline the timer fires
first, and otherwise the natural exit code is reported. -/
def limitedSpawn : ChildBehavior → ExecResult
  | .spawnFail errCode =>
      { exitCode := none, signal := none, stdout := "", stderr := "",
        timedOut := false, outputTruncated := false, spawnError := some errCode }
  | .run chunks exitTime exitCode =>
      let s := chunks.foldl stepChunk initSup
      if s.killed then
        { exitCode := none, signal := some "SIGKILL",
          stdout := String.mk s.stdoutBuf, stderr := String.mk s.stderrBuf,
          timedOut := s.timedOut, outputTruncated := s.outputTruncated,
          spawnError := none }
      else if EXECUTION_TIMEOUT_MS ≤ exitTime then
        { exitCode := none, signal := some "SIGKILL",
          stdout := String.mk s.stdoutBuf, stderr := String.mk s.stderrBuf,
          timedOut := true, outputTruncated := s.outputTruncated,
          spawnError := none }
      else
        { exitCode := some exitCode, signal := none,
          stdout := String.mk s.stdoutBuf, stderr := String.mk s.stderrBuf,
          timedOut := s.timedOut, outputTruncated := s.outputTruncated,
          spawnError := none }

/-- Result of one `limitedSpawn` call plus how many times its `done`
step ran the caller-supplied cleanup (the workspace `rm`). -/
structure SpawnOut where
  result : ExecResult
  rmRuns : Nat
deriving DecidableEq

/-- `limitedSpawn` with its `cleanup` argument.  `done` (lines 384-390)
always awaits the cleanup before resolving, wrapped in `try/catch`, so
the payload is computed independently of whether the removal succeeds:
the `rmOk` flag is deliberately unused. -/
def limitedSpawnWith (b : ChildBehavior) (cleanup : Bool) (_rmOk : Bool) : SpawnOut :=
  { result := limitedSpawn b, rmRuns := if cleanup then 1 else 0 }

/-! ### LanguageAdapters (lines 329-335 and 410-474)

A `Host` says how each command the adapters may spawn would behave on
this machine; `process.execPath` is referred to as `"node"` and the
compiled C++ artifact as `"./main"`.  The adapters' unguarded
`await rm(tempDir, ...)` calls on the compile-failure paths are
modelled by `awaitRm`: unlike the supervisor's guarded cleanup, a
rejection there propagates out of the adapter (`Except.error`). -/

def Host : Type := String → ChildBehavior

/-- Adapter outcome: the result it returns, the commands it spawned in
order, and how many workspace-removal attempts were made. -/
structure AdapterOut where
  result : ExecResult
  spawned : List String
  rmRuns : Nat
deriving DecidableEq

/-- An unguarded `await rm(tempDir, { recursive: true, force: true })`:
if the removal fails the rejection propagates to the caller. -/
def awaitRm (rmOk : Bool) : Except Unit Unit :=
  if rmOk then .ok () else .error ()

/-- `runJavaScript` (lines 329-335): write the source, spawn
`process.execPath` with the workspace removal as the supervised
cleanup. -/
def runJavaScript (host : Host) (rmOk : Bool) : Except Unit AdapterOut :=
  let r := limitedSpawnWith (host "node") true rmOk
  .ok { result := r.result, spawned := ["node"], rmRuns := r.rmRuns }

/-- `runPython` (lines 410-421): try `python`; if that spawn fails with
`ENOENT`, retry with `py -3`.  Both calls carry the removal as the
supervised cleanup. -/
def runPython (host : Host) (rmOk : Bool) : Except Unit AdapterOut :=
  let r1 := limitedSpawnWith (host "python") true rmOk
  if r1.result.spawnError = some "ENOENT" then
    let r2 := limitedSpawnWith (host "py") true rmOk
    .ok { result := r2.result, spawned := ["python", "py"],
          rmRuns := r1.rmRuns + r2.rmRuns }
  else
    .ok { result := r1.result, spawned := ["python"], rmRuns := r1.rmRuns }

/-- The `run.spawnError === 'ENOENT'` patch-up of `runJava`
(lines 442-444): append an explanatory line to whatever stderr was
captured. -/
def javaNotFoundFix (r : ExecResult) : ExecResult :=
  if r.spawnError = some "ENOENT" then
    { r with stderr :=
        (if r.stderr = "" then "" else r.stderr ++ "\n") ++ "java not found. Install JRE/JDK." }
  else r

/-- `runJava` (lines 423-446): compile with `javac` (no supervised
cleanup), handle a missing compiler and a failing compile by removing
the workspace (unguarded `await rm`) and returning without a run step;
otherwise run `java -cp tempDir Main` with the removal as the
supervised cleanup. -/
def runJava (host : Host) (rmOk : Bool) : Except Unit AdapterOut :=
  let compile := limitedSpawnWith (host "javac") false rmOk
  if compile.result.spawnError = some "ENOENT" then
    match awaitRm rmOk with
    | .error e => .error e
    | .ok _ =>
        .ok { result := { exitCode := none, signal := none, stdout := "",
                          stderr := "javac not found. Install JDK.",
                          timedOut := false, outputTruncated := false,
                          spawnError := none },
              spawned := ["javac"], rmRuns := 1 }
  else if compile.result.exitCode = some 0 then
    let run := limitedSpawnWith (host "java") true rmOk
    .ok { result := javaNotFoundFix run.result, spawned := ["javac", "java"],
          rmRuns := run.rmRuns }
  else
    match awaitRm rmOk with
    | .error e => .error e
    | .ok _ => .ok { result := compile.result, spawned := ["javac"], rmRuns := 1 }

/-- `runCpp` (lines 448-474): compile with `g++`, falling back to
`clang++` when `g++` is absent; a missing compiler and a failing
compile remove the workspace (unguarded `await rm`) and return without
a run step; otherwise run the produced `./main` with the removal as the
supervised cleanup. -/
def runCpp (host : Host) (rmOk : Bool) : Except Unit AdapterOut :=
  let c1 := limitedSpawnWith (host "g++") false rmOk
  let compile := if c1.result.spawnError = some "ENOENT" then
      limitedSpawnWith (host "clang++") false rmOk
    else c1
  let compSpawned := if c1.result.spawnError = some "ENOENT" then
      ["g++", "clang++"]
    else ["g++"]
  if compile.result.spawnError = some "ENOENT" then
    match awaitRm rmOk with
    | .error e => .error e
    | .ok _ =>
        .ok { result := { exitCode := none, signal := none, stdout := "",
                          stderr := "C++ compiler not found (g++/clang++).",
                          timedOut := false, outputTruncated := false,
                          spawnError := none },
              spawned := compSpawned, rmRuns := 1 }
  else if compile.result.exitCode = some 0 then
    let run := limitedSpawnWith (host "./main") true rmOk
    .ok { result := run.result, spawned := compSpawned ++ ["./main"],
          rmRuns := run.rmRuns }
  else
    match awaitRm rmOk with
    | .error e => .error e
    | .ok _ => .ok { result := compile.result, spawned := compSpawned, rmRuns := 1 }

/-- The `switch (language)` of the `run-code` handler (lines 690-703):
`javascript`/`typescript` share the JavaScript adapter; an unknown
language falls to the default branch (`none` here). -/
def dispatchLanguage (host : Host) (rmOk : Bool) : String → Option (Except Unit AdapterOut)
  | "javascript" => some (runJavaScript host rmOk)
  | "typescript" => some (runJavaScript host rmOk)
  | "python" => some (runPython host rmOk)
  | "java" => some (runJava host rmOk)
  | "cpp" => some (runCpp host rmOk)
  | _ => none

def exceptOk {ε α : Type} : Except ε α → Bool
  | .ok _ => true
  | .error _ => false

/-- Workspace-removal attempts of an adapter call (zero when the
adapter itself rejected). -/
def adapterRm : Except Unit AdapterOut → Nat
  | .ok o => o.rmRuns
  | .error _ => 0

/-! ### RoomRegistry and SessionGateway (lines 476-773)

The registry is the module-level `rooms` map; `userSockets` together
with the socket layer's per-connection room set is the `sockets` map
(`joinedRooms` is `socket.rooms` minus the socket's own id).  Handlers
return the successor state and the list of emitted events; an `Emit`
records the fan-out the source chose (`socket.emit`,
`socket.to(roomId).emit`, or `io.to(roomId).emit`). -/

/-- The whitespace set of JS `String.prototype.trim`: the WhiteSpace
code points (TAB, VT, FF, SP, NBSP, ZWNBSP and the Unicode
space-separator category) plus the LineTerminator code points
(LF, CR, LS, PS). -/
def isJsWhitespace (c : Char) : Bool :=
  c.toNat == 0x0009 || c.toNat == 0x000A || c.toNat == 0x000B || c.toNat == 0x000C ||
  c.toNat == 0x000D || c.toNat == 0x0020 || c.toNat == 0x00A0 || c.toNat == 0x1680 ||
  (decide (0x2000 ≤ c.toNat) && decide (c.toNat ≤ 0x200A)) || c.toNat == 0x2028 ||
  c.toNat == 0x2029 || c.toNat == 0x202F || c.toNat == 0x205F || c.toNat == 0x3000 ||
  c.toNat == 0xFEFF

/-- JavaScript `String.prototype.trim`: strip leading and trailing JS
whitespace.  (Defined over the character list so that it reduces
definitionally.) -/
def trimString (s : String) : String :=
  String.mk (((s.data.dropWhile isJsWhitespace).reverse.dropWhile isJsWhitespace).reverse)

/-- A participant record (lines 580-585). -/
structure Participant where
  id : String
  username : String
  joinedAt : Nat
  lastSeen : Nat
deriving DecidableEq

/-- A room record (lines 478-505).  `language` is an `Option` because
the `language-change` handler writes the raw—possibly missing—field of
the inbound event straight into the room. -/
structure Room where
  id : String
  code : String
  language : Option String
  participants : List (String × Participant)
  createdAt : Nat
  lastActivity : Nat
deriving DecidableEq

/-- Per-connection bookkeeping: `userSockets` entry plus the transport
room set maintained by `socket.join` / `socket.leave`. -/
structure SocketState where
  connectedAt : Nat
  joinedRooms : List String
deriving DecidableEq

structure ServerState where
  rooms : List (String × Room)
  sockets : List (String × SocketState)
deriving DecidableEq

/-- Server→client event payloads (§6 of the protocol). -/
inductive Payload where
  | errorMsg (message : String)
  | roomState (code : String) (language : Option String) (participants : List Participant)
  | userJoined (user : Participant) (participants : List Participant)
  | codeUpdate (code : String) (language : Option String) (updatedBy : String)
  | languageUpdate (language : Option String) (updatedBy : String)
  | userLeft (user : Participant) (participants : List Participant)
  | runResult (roomId : String) (language : String) (startedAt : Nat) (durationMs : Nat)
      (exitCode : Option Int) (stdout : String) (stderr : String)
      (timedOut : Bool) (outputTruncated : Bool) (initiatedBy : String)
  | pong
deriving DecidableEq

/-- One emission with its fan-out: `socket.emit` (sender only),
`socket.to(roomId).emit` (transport members of the room except the
sender), `io.to(roomId).emit` (all transport members of the room). -/
inductive Emit where
  | toSender (sid : String) (p : Payload)
  | toRoomExceptSender (roomId sid : String) (p : Payload)
  | toRoomAll (roomId : String) (p : Payload)
deriving DecidableEq

/-- The connections a given `Emit` is delivered to, per the socket
layer's documented semantics: room fan-out goes to the sockets
currently transport-joined to the room, minus the sender for
`socket.to`. -/
def recipientsList (s : ServerState) : Emit → List String
  | .toSender sid _ => [sid]
  | .toRoomExceptSender roomId sid _ =>
      ((s.sockets.filter (fun e => e.2.joinedRooms.contains roomId && e.1 != sid)).map
        (fun e => e.1))
  | .toRoomAll roomId _ =>
      ((s.sockets.filter (fun e => e.2.joinedRooms.contains roomId)).map (fun e => e.1))

/-- The default seeded buffer of a fresh room (lines 481-500), with the
room id interpolated. -/
def defaultCode (roomId : String) : String :=
  "// Welcome to CodeSync - Real-time Collaborative Editor!\n// Share this room ID with others to collaborate: "
    ++ roomId
    ++ "\n\nfunction fibonacci(n) \x7b\n  if (n <= 1) return n;\n  return fibonacci(n - 1) + fibonacci(n - 2);\n\x7d\n\n// Try editing this code with multiple users!\nconsole.log(\x27Fibonacci sequence:\x27);\nfor (let i = 0; i < 10; i++) \x7b\n  console.log(\x60F($\x7bi\x7d) = $\x7bfibonacci(i)\x7d\x60);\n\x7d\n\n// Features:\n// ✨ Real-time collaboration\n// 🎨 Syntax highlighting\n// 🔄 Auto-save\n// 👥 Live user presence\n// 🚀 Multiple language support"

/-- The room object `getOrCreateRoom` seeds when the id is absent
(lines 478-505). -/
def freshRoom (roomId : String) (now : Nat) : Room :=
  { id := roomId, code := defaultCode roomId, language := some "javascript",
    participants := [], createdAt := now, lastActivity := now }

/-- `getOrCreateRoom` (lines 477-508).  The source inserts the fresh
room into `rooms` and returns the shared reference; here the caller
re-inserts the (mutated) room under the same key, which yields the same
registry. -/
def getOrCreateRoom (roomsL : List (String × Room)) (roomId : String) (now : Nat) : Room :=
  (mapGet roomsL roomId).getD (freshRoom roomId now)

/-- `participant?.username || 'Unknown'`: both a missing participant
record and an empty stored username fall back to `'Unknown'`. -/
def displayName : Option Participant → String
  | some p => if p.username = "" then "Unknown" else p.username
  | none => "Unknown"

/-- The `join-room` handler (lines 558-609).  Validation is JS
truthiness (`!roomId || !username`), so a missing field and the empty
string are rejected but whitespace-only strings pass.  The socket
leaves every previously joined transport room and joins `roomId`; the
participant record (username trimmed) is written into the room, and the
prior room's registry record is NOT touched. -/
def joinRoom (s : ServerState) (sid : String) (roomId? username? : Option String)
    (now : Nat) : ServerState × List Emit :=
  match roomId?, username? with
  | some roomId, some username =>
      if roomId = "" ∨ username = "" then
        (s, [.toSender sid (.errorMsg "Room ID and username are required")])
      else
        let room := getOrCreateRoom s.rooms roomId now
        let participant : Participant :=
          { id := sid, username := trimString username, joinedAt := now, lastSeen := now }
        let room' := { room with
          participants := mapSet room.participants sid participant,
          lastActivity := now }
        let s' : ServerState :=
          { rooms := mapSet s.rooms roomId room',
            sockets := mapAdjust s.sockets sid (fun info => { info with joinedRooms := [roomId] }) }
        (s', [.toSender sid (.roomState room'.code room'.language (mapValues room'.participants)),
              .toRoomExceptSender roomId sid (.userJoined participant (mapValues room'.participants))])
  | _, _ => (s, [.toSender sid (.errorMsg "Room ID and username are required")])

/-- `if (code !== undefined) room.code = code`: the buffer field is
applied whenever present, including the empty string. -/
def lwwCode (code? : Option String) (old : String) : String :=
  match code? with
  | some c => c
  | none => old

/-- `if (language) room.language = language`: the language field is
applied only when truthy (present and nonempty). -/
def lwwLanguage (language? : Option String) (old : Option String) : Option String :=
  match language? with
  | some lang => if lang = "" then old else some lang
  | none => old

/-- Touch the acting participant's `lastSeen` when a record exists
(lines 627-630). -/
def touchLastSeen (participants : List (String × Participant)) (sid : String)
    (now : Nat) : List (String × Participant) :=
  match mapGet participants sid with
  | some p => mapSet participants sid { p with lastSeen := now }
  | none => participants

/-- The `code-change` handler (lines 611-643).  `code` is applied when
present (`code !== undefined`, so the empty string counts); `language`
only when truthy; `lastActivity` and the acting participant's
`lastSeen` are touched; the update is broadcast to the room excluding
the sender.  There is no membership check on the sender. -/
def codeChange (s : ServerState) (sid : String) (roomId? code? language? : Option String)
    (now : Nat) : ServerState × List Emit :=
  match roomId? with
  | none => (s, [.toSender sid (.errorMsg "Room not found")])
  | some roomId =>
      match mapGet s.rooms roomId with
      | none => (s, [.toSender sid (.errorMsg "Room not found")])
      | some room =>
          let room' := { room with
            code := lwwCode code? room.code,
            language := lwwLanguage language? room.language,
            lastActivity := now,
            participants := touchLastSeen room.participants sid now }
          ({ s with rooms := mapSet s.rooms roomId room' },
           [.toRoomExceptSender roomId sid
              (.codeUpdate room'.code room'.language
                (displayName (mapGet room.participants sid)))])

/-- The `language-change` handler (lines 645-669).  Note there is no
validation of `language`: the raw field of the inbound event—possibly
missing—is written into the room and broadcast. -/
def languageChange (s : ServerState) (sid : String) (roomId? language? : Option String)
    (now : Nat) : ServerState × List Emit :=
  match roomId? with
  | none => (s, [.toSender sid (.errorMsg "Room not found")])
  | some roomId =>
      match mapGet s.rooms roomId with
      | none => (s, [.toSender sid (.errorMsg "Room not found")])
      | some room =>
          let room' := { room with language := language?, lastActivity := now }
          ({ s with rooms := mapSet s.rooms roomId room' },
           [.toRoomExceptSender roomId sid
              (.languageUpdate language? (displayName (mapGet room.participants sid)))])

/-- The `rooms.forEach` body of the `disconnect` handler
(lines 745-766): remove the disconnecting socket from every room that
holds a record for it, touch `lastActivity`, announce `user-left`, and
delete the room on the spot when its participant set became empty. -/
def removeFromRooms (sid : String) (now : Nat) :
    List (String × Room) → List (String × Room) × List Emit
  | [] => ([], [])
  | (roomId, room) :: rest =>
      let tail := removeFromRooms sid now rest
      match mapGet room.participants sid with
      | none => ((roomId, room) :: tail.1, tail.2)
      | some p =>
          let room' := { room with
            participants := mapDel room.participants sid,
            lastActivity := now }
          let em := Emit.toRoomExceptSender roomId sid
            (.userLeft p (mapValues room'.participants))
          if room'.participants.isEmpty then
            (tail.1, em :: tail.2)
          else
            ((roomId, room') :: tail.1, em :: tail.2)

/-- The `disconnect` handler (lines 739-767): drop the `userSockets`
entry, then sweep every room for the departing socket. -/
def disconnectHandler (s : ServerState) (sid : String) (now : Nat) :
    ServerState × List Emit :=
  let swept := removeFromRooms sid now s.rooms
  ({ rooms := swept.1, sockets := mapDel s.sockets sid }, swept.2)

def CLEANUP_MAX_AGE_MS : Nat := 24 * 60 * 60 * 1000

/-- `cleanupInactiveRooms` (lines 511-521): the hourly sweep deletes
rooms with zero participants idle longer than 24 hours.  (JS date
subtraction of a later `lastActivity` is negative and never exceeds
`maxAge`; truncated `Nat` subtraction agrees.) -/
def cleanupInactiveRooms (roomsL : List (String × Room)) (now : Nat) :
    List (String × Room) :=
  roomsL.filter (fun e =>
    !(e.2.participants.isEmpty && decide (CLEANUP_MAX_AGE_MS < now - e.2.lastActivity)))

/-- The `run-code` handler (lines 672-737).  It never writes the
registry: it validates (`!roomId || typeof code !== 'string' ||
!language`), looks the room up, dispatches to an adapter, and emits one
`run-result` to the whole room (`io.to`, sender included).  An unknown
language produces the soft "not supported" result.  A rejection from an
adapter (the unguarded workspace removal) is caught by the handler's
`try/catch` and surfaces as a sender-only generic error. -/
def runCodeEmits (s : ServerState) (sid : String) (roomId? code? language? : Option String)
    (host : Host) (rmOk : Bool) (now dur : Nat) : List Emit :=
  match roomId?, code?, language? with
  | some roomId, some _, some language =>
      if roomId = "" ∨ language = "" then
        [.toSender sid (.errorMsg "Invalid run request")]
      else
        match mapGet s.rooms roomId with
        | none => [.toSender sid (.errorMsg "Room not found")]
        | some room =>
            let name := displayName (mapGet room.participants sid)
            match dispatchLanguage host rmOk language with
            | none =>
                [.toRoomAll roomId (.runResult roomId language now 0 none ""
                  ("Execution for language \"" ++ language ++ "\" is not supported yet.")
                  false false name)]
            | some (.error _) => [.toSender sid (.errorMsg "Failed to run code")]
            | some (.ok out) =>
                [.toRoomAll roomId (.runResult roomId language now dur
                  out.result.exitCode out.result.stdout out.result.stderr
                  out.result.timedOut out.result.outputTruncated name)]
  | _, _, _ => [.toSender sid (.errorMsg "Invalid run request")]

/-! ### Event-trace semantics -/

/-- One inbound event of the gateway.  `runCodeEv` carries the host
behavior and the duration its execution took; the handler reads but
never writes the registry, which the `step` below makes explicit. -/
inductive Event where
  | connect (sid : String)
  | joinRoomEv (sid : String) (roomId? username? : Option String)
  | codeChangeEv (sid : String) (roomId? code? language? : Option String)
  | languageChangeEv (sid : String) (roomId? language? : Option String)
  | runCodeEv (sid : String) (roomId? code? language? : Option String)
      (host : Host) (rmOk : Bool) (dur : Nat)
  | disconnectEv (sid : String)
  | pingEv (sid : String)
  | sweepEv

/-- Process one event at wall-clock time `now`. -/
def step (s : ServerState) (e : Event) (now : Nat) : ServerState × List Emit :=
  match e with
  | .connect sid =>
      ({ s with sockets := mapSet s.sockets sid { connectedAt := now, joinedRooms := [] } }, [])
  | .joinRoomEv sid roomId? username? => joinRoom s sid roomId? username? now
  | .codeChangeEv sid roomId? code? language? => codeChange s sid roomId? code? language? now
  | .languageChangeEv sid roomId? language? => languageChange s sid roomId? language? now
  | .runCodeEv sid roomId? code? language? host rmOk dur =>
      (s, runCodeEmits s sid roomId? code? language? host rmOk now dur)
  | .disconnectEv sid => disconnectHandler s sid now
  | .pingEv sid => (s, [.toSender sid .pong])
  | .sweepEv => ({ s with rooms := cleanupInactiveRooms s.rooms now }, [])

def initialState : ServerState := { rooms := [], sockets := [] }

/-- Run a trace of timed events from the freshly started server. -/
def execTrace (tr : List (Event × Nat)) : ServerState :=
  tr.foldl (fun s p => (step s p.1 p.2).1) initialState

/-- Decidable check used by the C1 invariant: does the registry hold a
room whose participant set is empty? -/
def registryHasEmptyRoom (s : ServerState) : Bool :=
  s.rooms.any (fun e => e.2.participants.isEmpty)

/-- The registry invariant behind claim C1: every room held by the
registry has at least one participant record. -/
def RoomsNonempty (s : ServerState) : Prop :=
  ∀ e ∈ s.rooms, e.2.participants ≠ []

/-- Buffer bound maintained by the supervisor while the child runs. -/
def BufsCapped (s : SupState) : Prop :=
  s.stdoutBuf.length ≤ MAX_OUTPUT_BYTES ∧ s.stderrBuf.length ≤ MAX_OUTPUT_BYTES

/-- A kill is always accounted for by one of the two flags. -/
def KillFlagged (s : SupState) : Prop :=
  s.killed = true → s.outputTruncated = true ∨ s.timedOut = true

deriving instance DecidableEq for Except

/-! ### Concrete inputs used by the counterexamples and witnesses -/

/-- A single 65537-byte stdout chunk, one byte past the 64KB cap. -/
def bigChunk : Chunk :=
  { t := 0, tag := .stdoutStream, data := List.replicate 65537 'a' }

/-- A host on which no toolchain binary resolves. -/
def enoentHost : Host := fun _ => .spawnFail "ENOENT"

/-- The adapter outcome `runPython` produces on `enoentHost`. -/
def pyMissingOut : AdapterOut :=
  { result := { exitCode := none, signal := none, stdout := "", stderr := "",
                timedOut := false, outputTruncated := false, spawnError := some "ENOENT" },
    spawned := ["python", "py"], rmRuns := 2 }

/-- The literal object `runJava` returns when `javac` is absent
(line 432). -/
def javacMissingOut : AdapterOut :=
  { result := { exitCode := none, signal := none, stdout := "",
                stderr := "javac not found. Install JDK.",
                timedOut := false, outputTruncated := false, spawnError := none },
    spawned := ["javac"], rmRuns := 1 }

/-- The literal object `runCpp` returns when both compilers are absent
(line 463). -/
def cppMissingOut : AdapterOut :=
  { result := { exitCode := none, signal := none, stdout := "",
                stderr := "C++ compiler not found (g++/clang++).",
                timedOut := false, outputTruncated := false, spawnError := none },
    spawned := ["g++", "clang++"], rmRuns := 1 }

/-- A host whose `javac` runs and fails with a diagnostic on stderr;
the JRE is absent. -/
def javacDiagHost : Host := fun cmd =>
  if cmd = "javac" then
    .run [{ t := 10, tag := .stderrStream, data := "Main.java:1: error: class expected".data }] 20 1
  else .spawnFail "ENOENT"

/-- A host whose `javac` runs and exits 2 without output. -/
def javacFailHost : Host := fun cmd =>
  if cmd = "javac" then .run [] 10 2 else .spawnFail "ENOENT"

/-- A host with no `g++` whose fallback `clang++` runs and fails with a
diagnostic on stderr. -/
def clangDiagHost : Host := fun cmd =>
  if cmd = "clang++" then
    .run [{ t := 10, tag := .stderrStream,
            data := "main.cpp:1:1: error: expected unqualified-id".data }] 20 1
  else .spawnFail "ENOENT"

/-- Connection A joins room R1 and then switches to room R2. -/
def trC2 : List (Event × Nat) :=
  [(.connect "A", 0), (.joinRoomEv "A" (some "R1") (some "ann"), 1),
   (.joinRoomEv "A" (some "R2") (some "ann"), 2)]

/-- Single freshly connected socket A. -/
def stJoin1 : ServerState := execTrace [(.connect "A", 0)]

/-- Connections A and B both join room R1. -/
def trC3 : List (Event × Nat) :=
  [(.connect "A", 0), (.connect "B", 1), (.joinRoomEv "A" (some "R1") (some "ann"), 2),
   (.joinRoomEv "B" (some "R1") (some "bob"), 3)]

def stC3 : ServerState := execTrace trC3

/-- The R1 room record of `stC3`. -/
def roomC3 : Room := (mapGet stC3.rooms "R1").getD (freshRoom "R1" 0)

/-- Single freshly connected socket C (for the whitespace-username join). -/
def stC3b : ServerState := execTrace [(.connect "C", 0)]

/-- A and B join R1, then B switches to R2 leaving its stale R1
participant record behind. -/
def trC4 : List (Event × Nat) :=
  [(.connect "A", 0), (.connect "B", 1), (.joinRoomEv "A" (some "R1") (some "ann"), 2),
   (.joinRoomEv "B" (some "R1") (some "bob"), 3), (.joinRoomEv "B" (some "R2") (some "bob"), 4)]

def stC4 : ServerState := execTrace trC4

/-- The R1 room record of `stC4`. -/
def roomC4 : Room := (mapGet stC4.rooms "R1").getD (freshRoom "R1" 0)

/-- Room-state for the C7 delivery witness: A sits in R1. -/
def stC7 : ServerState :=
  execTrace [(.connect "A", 0), (.joinRoomEv "A" (some "R1") (some "ann"), 1)]

/-- The R1 room record of `stC7`. -/
def roomC7 : Room := (mapGet stC7.rooms "R1").getD (freshRoom "R1" 0)

/-- B sits in R1; A is connected but never joined R1. -/
def stC10 : ServerState :=
  execTrace [(.connect "B", 0), (.joinRoomEv "B" (some "R1") (some "bob"), 1), (.connect "A", 2)]

/-- The R1 room record of `stC10`. -/
def roomC10 : Room := (mapGet stC10.rooms "R1").getD (freshRoom "R1" 0)

/-! ## Lemmas and claim theorems -/

theorem mapGet_mapSet_self {α : Type} (l : List (String × α)) (k : String) (v : α) :
    mapGet (mapSet l k v) k = some v := by
  induction l with
  | nil => simp [mapSet, mapGet]
  | cons h t ih =>
      by_cases hk : h.1 = k
      · simp [mapSet, hk, mapGet]
      · simp [mapSet, hk, mapGet, ih]

theorem mapGet_mapSet_ne {α : Type} (l : List (String × α)) (k k' : String) (v : α)
    (h : k' ≠ k) : mapGet (mapSet l k v) k' = mapGet l k' := by
  have hne : k ≠ k' := fun hh => h hh.symm
  induction l with
  | nil => simp [mapSet, mapGet, hne]
  | cons hd t ih =>
      by_cases hk : hd.1 = k
      · by_cases hk' : hd.1 = k'
        · exact absurd (hk.symm.trans hk') hne
        · simp [mapSet, hk, mapGet, hk', hne]
      · by_cases hk' : hd.1 = k'
        · simp [mapSet, hk, mapGet, hk', h]
        · simp [mapSet, hk, mapGet, hk', ih]

theorem mem_mapSet {α : Type} {l : List (String × α)} {k : String} {v : α} {x : String × α} :
    x ∈ mapSet l k v → x = (k, v) ∨ x ∈ l := by
  induction l with
  | nil =>
      intro h
      simp only [mapSet] at h
      exact Or.inl (by simpa using h)
  | cons hd t ih =>
      intro h
      by_cases hk : hd.1 = k
      · simp only [mapSet, if_pos hk, List.mem_cons] at h
        rcases h with h | h
        · exact Or.inl h
        · exact Or.inr (List.mem_cons_of_mem _ h)
      · simp only [mapSet, if_neg hk, List.mem_cons] at h
        rcases h with h | h
        · exact Or.inr (h ▸ List.mem_cons_self _ _)
        · rcases ih h with h' | h'
          · exact Or.inl h'
          · exact Or.inr (List.mem_cons_of_mem _ h')

theorem mapSet_ne_nil {α : Type} (l : List (String × α)) (k : String) (v : α) :
    mapSet l k v ≠ [] := by
  cases l with
  | nil => simp [mapSet]
  | cons hd t =>
      by_cases hk : hd.1 = k <;> simp [mapSet, hk]

theorem mem_mapDel {α : Type} {l : List (String × α)} {k : String} {x : String × α} :
    x ∈ mapDel l k → x ∈ l := by
  induction l with
  | nil =>
      intro h
      simp [mapDel] at h
  | cons hd t ih =>
      intro h
      by_cases hk : hd.1 = k
      · simp only [mapDel, if_pos hk] at h
        exact List.mem_cons_of_mem _ h
      · simp only [mapDel, if_neg hk, List.mem_cons] at h
        rcases h with h | h
        · exact h ▸ List.mem_cons_self _ _
        · exact List.mem_cons_of_mem _ (ih h)

theorem mapGet_mem {α : Type} {l : List (String × α)} {k : String} {v : α} :
    mapGet l k = some v → (k, v) ∈ l := by
  induction l with
  | nil =>
      intro h
      simp [mapGet] at h
  | cons hd t ih =>
      intro h
      by_cases hk : hd.1 = k
      · simp only [mapGet, if_pos hk] at h
        cases h
        have hhd : hd = (k, hd.2) := by
          cases hd
          simp_all
        rw [hhd]
        exact List.mem_cons_self _ _
      · simp only [mapGet, if_neg hk] at h
        exact List.mem_cons_of_mem _ (ih h)

theorem mapGet_mapAdjust {α : Type} (l : List (String × α)) (k : String) (f : α → α) :
    mapGet (mapAdjust l k f) k = (mapGet l k).map f := by
  induction l with
  | nil => simp [mapAdjust, mapGet]
  | cons hd t ih =>
      simp only [mapAdjust, List.map_cons] at ih ⊢
      by_cases hk : hd.1 = k
      · rw [if_pos hk]
        simp [mapGet, hk]
      · rw [if_neg hk]
        simp [mapGet, hk, ih]

theorem ne_nil_of_isEmpty_false {α : Type} {l : List α} (h : l.isEmpty = false) :
    l ≠ [] := by
  cases l with
  | nil => simp [List.isEmpty] at h
  | cons a t => simp

theorem isEmpty_false_of_ne_nil {α : Type} {l : List α} (h : l ≠ []) :
    l.isEmpty = false := by
  cases l with
  | nil => exact absurd rfl h
  | cons a t => rfl

/-! ### Supervisor lemmas -/

theorem length_mk (l : List Char) : (String.mk l).length = l.length := rfl

theorem capAppend_length_le {buf chunk : List Char} (h : buf.length ≤ MAX_OUTPUT_BYTES) :
    (capAppend buf chunk).1.length ≤ MAX_OUTPUT_BYTES := by
  unfold capAppend
  split
  · simp only [List.length_append, List.length_take]
    omega
  · rename_i hle
    simp only [List.length_append]
    omega

theorem stepChunk_BufsCapped {s : SupState} (c : Chunk) (h : BufsCapped s) :
    BufsCapped (stepChunk s c) := by
  unfold stepChunk
  by_cases hk : s.killed = true
  · simp [hk]; exact h
  · simp only [Bool.not_eq_true] at hk
    by_cases ht : EXECUTION_TIMEOUT_MS ≤ c.t
    · simp [hk, ht]
      exact ⟨h.1, h.2⟩
    · cases htag : c.tag <;> simp [hk, ht, htag] <;> split <;>
        exact ⟨by first
                | exact capAppend_length_le h.1
                | exact h.1,
               by first
                | exact capAppend_length_le h.2
                | exact h.2⟩

theorem foldl_BufsCapped (chunks : List Chunk) (s : SupState) (h : BufsCapped s) :
    BufsCapped (chunks.foldl stepChunk s) := by
  induction chunks generalizing s with
  | nil => exact h
  | cons c rest ih => exact ih _ (stepChunk_BufsCapped c h)

theorem stepChunk_KillFlagged {s : SupState} (c : Chunk) (h : KillFlagged s) :
    KillFlagged (stepChunk s c) := by
  unfold stepChunk
  by_cases hk : s.killed = true
  · simp [hk]; exact h
  · simp only [Bool.not_eq_true] at hk
    by_cases ht : EXECUTION_TIMEOUT_MS ≤ c.t
    · simp [hk, ht, KillFlagged]
    · cases htag : c.tag <;> simp [hk, ht, htag] <;> split <;>
        simp [KillFlagged, hk]

theorem foldl_KillFlagged (chunks : List Chunk) (s : SupState) (h : KillFlagged s) :
    KillFlagged (chunks.foldl stepChunk s) := by
  induction chunks generalizing s with
  | nil => exact h
  | cons c rest ih => exact ih _ (stepChunk_KillFlagged c h)

/-- Claim C5: for every supervised execution, stdout and stderr are
capped independently at 64KB in the delivered result; and at the level
of a single `data` event, the first chunk that would push a live
stream past its cap is truncated to the remaining budget,
`outputTruncated` is set, and the child is killed on the spot. -/
theorem outputCapEnforced :
    (∀ b : ChildBehavior,
        (limitedSpawn b).stdout.length ≤ MAX_OUTPUT_BYTES ∧
        (limitedSpawn b).stderr.length ≤ MAX_OUTPUT_BYTES) ∧
    (∀ (s : SupState) (c : Chunk), s.killed = false → c.t < EXECUTION_TIMEOUT_MS →
        c.tag = .stdoutStream →
        MAX_OUTPUT_BYTES < s.stdoutBuf.length + c.data.length →
        stepChunk s c = { s with
          stdoutBuf := s.stdoutBuf ++ c.data.take (MAX_OUTPUT_BYTES - s.stdoutBuf.length),
          outputTruncated := true, killed := true }) ∧
    (∀ (s : SupState) (c : Chunk), s.killed = false → c.t < EXECUTION_TIMEOUT_MS →
        c.tag = .stderrStream →
        MAX_OUTPUT_BYTES < s.stderrBuf.length + c.data.length →
        stepChunk s c = { s with
          stderrBuf := s.stderrBuf ++ c.data.take (MAX_OUTPUT_BYTES - s.stderrBuf.length),
          outputTruncated := true, killed := true }) := by
  refine ⟨?_, ?_, ?_⟩
  · intro b
    cases b with
    | spawnFail e =>
        simp [limitedSpawn, MAX_OUTPUT_BYTES, String.length]
    | run chunks exitTime exitCode =>
        have hcap : BufsCapped (chunks.foldl stepChunk initSup) :=
          foldl_BufsCapped chunks initSup (by simp [BufsCapped, initSup])
        simp only [limitedSpawn]
        split
        · exact ⟨hcap.1, hcap.2⟩
        · split
          · exact ⟨hcap.1, hcap.2⟩
          · exact ⟨hcap.1, hcap.2⟩
  · intro s c hk ht htag hover
    have hnt : ¬ EXECUTION_TIMEOUT_MS ≤ c.t := Nat.not_le.mpr ht
    simp [stepChunk, hk, hnt, htag, capAppend, hover]
  · intro s c hk ht htag hover
    have hnt : ¬ EXECUTION_TIMEOUT_MS ≤ c.t := Nat.not_le.mpr ht
    simp [stepChunk, hk, hnt, htag, capAppend, hover]

/-- Witness for C5: a single 65537-byte stdout chunk against a fresh
supervisor overflows the 64KB budget, is truncated, and kills the
child. -/
theorem outputCapEnforced_witness :
    stepChunk initSup bigChunk =
      { initSup with
        stdoutBuf := initSup.stdoutBuf ++
          bigChunk.data.take (MAX_OUTPUT_BYTES - initSup.stdoutBuf.length),
        outputTruncated := true, killed := true } :=
  outputCapEnforced.2.1 initSup bigChunk
    rfl (by decide) rfl
    (by
      have h1 : bigChunk.data.length = 65537 := List.length_replicate 65537 'a'
      have h2 : initSup.stdoutBuf.length = 0 := rfl
      rw [h1, h2]
      decide)

/-- Claim C6: the 5000 ms wall-clock timeout starts at spawn; when the
child was not already overflow-killed and would not exit before the
deadline, the timer force-kills it and the delivered result has
`timedOut = true` with a `null` exit code (a result is still resolved,
never a hang or a throw — `limitedSpawn` is total). -/
theorem timeoutForceKills (chunks : List Chunk) (exitTime : Nat) (exitCode : Int)
    (hTr : (chunks.foldl stepChunk initSup).outputTruncated = false)
    (hLate : EXECUTION_TIMEOUT_MS ≤ exitTime) :
    (limitedSpawn (.run chunks exitTime exitCode)).timedOut = true ∧
    (limitedSpawn (.run chunks exitTime exitCode)).exitCode = none := by
  simp only [limitedSpawn]
  by_cases hk : (chunks.foldl stepChunk initSup).killed = true
  · have hfl := foldl_KillFlagged chunks initSup (by simp [KillFlagged, initSup]) hk
    rcases hfl with htr | htd
    · rw [hTr] at htr
      cases htr
    · simp [hk, htd]
  · simp only [Bool.not_eq_true] at hk
    simp [hk, hLate]

/-- Witness for C6: a silent child that would exit at 6000 ms is
reported as timed out with a `null` exit code. -/
theorem timeoutForceKills_witness :
    (limitedSpawn (.run [] 6000 0)).timedOut = true ∧
    (limitedSpawn (.run [] 6000 0)).exitCode = none :=
  timeoutForceKills [] 6000 0 (by decide) (by decide)

/-! ### Adapter lemmas (toolchain-missing paths) -/

theorem runPython_enoent (host : Host) (rmOk : Bool)
    (hp : host "python" = .spawnFail "ENOENT") (hp2 : host "py" = .spawnFail "ENOENT") :
    runPython host rmOk = .ok pyMissingOut := by
  simp [runPython, limitedSpawnWith, hp, hp2, limitedSpawn, pyMissingOut]

theorem runJava_enoent (host : Host) (hj : host "javac" = .spawnFail "ENOENT") :
    runJava host true = .ok javacMissingOut := by
  simp [runJava, limitedSpawnWith, hj, limitedSpawn, awaitRm, javacMissingOut]

theorem runCpp_enoent (host : Host) (hg : host "g++" = .spawnFail "ENOENT")
    (hc : host "clang++" = .spawnFail "ENOENT") :
    runCpp host true = .ok cppMissingOut := by
  simp [runCpp, limitedSpawnWith, hg, hc, limitedSpawn, awaitRm, cppMissingOut]

/-- Claim C7 (amended): a missing toolchain is delivered through the
normal `run-result` path with a `null` exit code and never throws; for
Java and C++ the stderr names the missing toolchain, but for Python
(both interpreters absent) the delivered stderr is empty — the
`run-result` payload carries no `toolchainMissing` field and no
explanatory text in that case. -/
theorem toolchainMissingSoftResult :
    (∀ host : Host, host "javac" = .spawnFail "ENOENT" →
        runJava host true = .ok javacMissingOut) ∧
    (∀ host : Host, host "g++" = .spawnFail "ENOENT" → host "clang++" = .spawnFail "ENOENT" →
        runCpp host true = .ok cppMissingOut) ∧
    (∀ (host : Host) (rmOk : Bool), host "python" = .spawnFail "ENOENT" →
        host "py" = .spawnFail "ENOENT" → runPython host rmOk = .ok pyMissingOut) ∧
    (∀ (s : ServerState) (sid roomId : String) (room : Room) (codeStr : String)
        (host : Host) (now dur : Nat),
        roomId ≠ "" → mapGet s.rooms roomId = some room →
        host "python" = .spawnFail "ENOENT" → host "py" = .spawnFail "ENOENT" →
        runCodeEmits s sid (some roomId) (some codeStr) (some "python") host true now dur =
          [.toRoomAll roomId (.runResult roomId "python" now dur none "" "" false false
             (displayName (mapGet room.participants sid)))]) := by
  refine ⟨runJava_enoent, runCpp_enoent, runPython_enoent, ?_⟩
  intro s sid roomId room codeStr host now dur hrid hroom hp hp2
  have hdisp : dispatchLanguage host true "python" = some (runPython host true) := rfl
  have hpy := runPython_enoent host true hp hp2
  simp [runCodeEmits, hrid, hroom, hdisp, hpy, pyMissingOut]

/-- Witness for C7 (amended), on a host with no toolchains at all and a
room R1 occupied by A. -/
theorem toolchainMissingSoftResult_witness :
    runJava enoentHost true = .ok javacMissingOut ∧
    runCpp enoentHost true = .ok cppMissingOut ∧
    runPython enoentHost false = .ok pyMissingOut ∧
    runCodeEmits stC7 "A" (some "R1") (some "print(1)") (some "python") enoentHost true 100 7 =
      [.toRoomAll "R1" (.runResult "R1" "python" 100 7 none "" "" false false
         (displayName (mapGet roomC7.participants "A")))] :=
  ⟨toolchainMissingSoftResult.1 enoentHost rfl,
   toolchainMissingSoftResult.2.1 enoentHost rfl rfl,
   toolchainMissingSoftResult.2.2.1 enoentHost false rfl rfl,
   toolchainMissingSoftResult.2.2.2 stC7 "A" "R1" roomC7 "print(1)" enoentHost 100 7
     (by decide) rfl rfl rfl⟩

/-- Counterexample to C7 as stated: it is not the case that every
missing-toolchain execution yields an explanatory stderr message.  On a
host where both `python` and `py` are absent, `runPython` resolves with
an empty stderr (and the `run-result` payload shape has no
`toolchainMissing` field at all), so the delivered result does not
identify the missing toolchain. -/
theorem missingToolchainNotExplained :
    ¬ (∀ host : Host, host "python" = .spawnFail "ENOENT" → host "py" = .spawnFail "ENOENT" →
        ∀ out : AdapterOut, runPython host true = .ok out → out.result.stderr ≠ "") :=
  fun hclaim =>
    hclaim enoentHost rfl rfl pyMissingOut (runPython_enoent enoentHost true rfl rfl) rfl

/-- Claim C8: a compile step (Java, C++) that ran and exited non-zero
short-circuits the adapter: the returned result is exactly the compile
step's result and no run command is ever spawned; a compile step that
exited 0 leads to the artifact being run under a fresh `limitedSpawn`
invocation — a new supervisor with its own `EXECUTION_TIMEOUT_MS` timer
and `MAX_OUTPUT_BYTES` budgets, independent of the compile step's.  The
last two conjuncts cover the C++ fallback path: with `g++` absent the
compile step is the `clang++` execution, and the same short-circuit /
fresh-budget behavior holds for it. -/
theorem compileFailureShortCircuits :
    (∀ (host : Host) (c : Int),
        (limitedSpawn (host "javac")).spawnError = none →
        (limitedSpawn (host "javac")).exitCode = some c → c ≠ 0 →
        runJava host true = .ok { result := limitedSpawn (host "javac"),
                                  spawned := ["javac"], rmRuns := 1 }) ∧
    (∀ (host : Host) (rmOk : Bool),
        (limitedSpawn (host "javac")).spawnError = none →
        (limitedSpawn (host "javac")).exitCode = some 0 →
        runJava host rmOk = .ok { result := javaNotFoundFix (limitedSpawn (host "java")),
                                  spawned := ["javac", "java"], rmRuns := 1 }) ∧
    (∀ (host : Host) (c : Int),
        (limitedSpawn (host "g++")).spawnError = none →
        (limitedSpawn (host "g++")).exitCode = some c → c ≠ 0 →
        runCpp host true = .ok { result := limitedSpawn (host "g++"),
                                 spawned := ["g++"], rmRuns := 1 }) ∧
    (∀ (host : Host) (rmOk : Bool),
        (limitedSpawn (host "g++")).spawnError = none →
        (limitedSpawn (host "g++")).exitCode = some 0 →
        runCpp host rmOk = .ok { result := limitedSpawn (host "./main"),
                                 spawned := ["g++", "./main"], rmRuns := 1 }) ∧
    (∀ (host : Host) (c : Int),
        host "g++" = .spawnFail "ENOENT" →
        (limitedSpawn (host "clang++")).spawnError = none →
        (limitedSpawn (host "clang++")).exitCode = some c → c ≠ 0 →
        runCpp host true = .ok { result := limitedSpawn (host "clang++"),
                                 spawned := ["g++", "clang++"], rmRuns := 1 }) ∧
    (∀ (host : Host) (rmOk : Bool),
        host "g++" = .spawnFail "ENOENT" →
        (limitedSpawn (host "clang++")).spawnError = none →
        (limitedSpawn (host "clang++")).exitCode = some 0 →
        runCpp host rmOk = .ok { result := limitedSpawn (host "./main"),
                                 spawned := ["g++", "clang++", "./main"], rmRuns := 1 }) := by
  refine ⟨?_, ?_, ?_, ?_, ?_, ?_⟩
  · intro host c h1 h2 h3
    simp [runJava, limitedSpawnWith, awaitRm, h1, h2, h3]
  · intro host rmOk h1 h2
    simp [runJava, limitedSpawnWith, awaitRm, h1, h2]
  · intro host c h1 h2 h3
    simp [runCpp, limitedSpawnWith, awaitRm, h1, h2, h3]
  · intro host rmOk h1 h2
    simp [runCpp, limitedSpawnWith, awaitRm, h1, h2]
  · intro host c hg h1 h2 h3
    have hen : (limitedSpawn (host "g++")).spawnError = some "ENOENT" := by
      rw [hg]
      rfl
    simp [runCpp, limitedSpawnWith, awaitRm, hen, h1, h2, h3]
  · intro host rmOk hg h1 h2
    have hen : (limitedSpawn (host "g++")).spawnError = some "ENOENT" := by
      rw [hg]
      rfl
    simp [runCpp, limitedSpawnWith, awaitRm, hen, h1, h2]

/-- Witness for C8: a host whose `javac` exits 1 with a diagnostic (the
adapter returns exactly the compile result and spawns no run command),
and a host with no `g++` whose fallback `clang++` exits 1 (the fallback
compile result is returned and no run command is spawned). -/
theorem compileFailureShortCircuits_witness :
    runJava javacDiagHost true =
      .ok { result := limitedSpawn (javacDiagHost "javac"),
            spawned := ["javac"], rmRuns := 1 } ∧
    runCpp clangDiagHost true =
      .ok { result := limitedSpawn (clangDiagHost "clang++"),
            spawned := ["g++", "clang++"], rmRuns := 1 } :=
  ⟨compileFailureShortCircuits.1 javacDiagHost 1 (by decide) (by decide) (by decide),
   compileFailureShortCircuits.2.2.2.2.1 clangDiagHost 1 rfl
     (by decide) (by decide) (by decide)⟩

/-- Claim C9 (amended): the per-request workspace removal is attempted
on every exit path of every adapter (normal completion, timeout kill,
overflow kill, spawn failure, compile-only failure), and inside the
supervisor the cleanup is awaited under `try/catch`, so its outcome
never changes the resolved payload; however on the adapters'
compile-failure and missing-compiler paths the removal is awaited
unguarded, so there a removal failure propagates instead of the
result. -/
theorem workspaceRemovalNeverSkipped :
    (∀ (host : Host) (rmOk : Bool),
        exceptOk (runJavaScript host rmOk) = true ∧
        1 ≤ adapterRm (runJavaScript host rmOk)) ∧
    (∀ (host : Host) (rmOk : Bool),
        exceptOk (runPython host rmOk) = true ∧ 1 ≤ adapterRm (runPython host rmOk)) ∧
    (∀ host : Host, exceptOk (runJava host true) = true ∧ 1 ≤ adapterRm (runJava host true)) ∧
    (∀ host : Host, exceptOk (runCpp host true) = true ∧ 1 ≤ adapterRm (runCpp host true)) ∧
    (∀ (b : ChildBehavior) (cleanup : Bool),
        limitedSpawnWith b cleanup true = limitedSpawnWith b cleanup false) := by
  refine ⟨?_, ?_, ?_, ?_, ?_⟩
  · intro host rmOk
    simp [runJavaScript, limitedSpawnWith, exceptOk, adapterRm]
  · intro host rmOk
    simp only [runPython, limitedSpawnWith]
    repeat' split
    all_goals simp_all [exceptOk, adapterRm]
  · intro host
    simp only [runJava, limitedSpawnWith, awaitRm]
    repeat' split
    all_goals simp_all [exceptOk, adapterRm]
  · intro host
    simp only [runCpp, limitedSpawnWith, awaitRm]
    repeat' split
    all_goals simp_all [exceptOk, adapterRm]
  · intro b cleanup
    rfl

/-- Counterexample to C9 as stated: on the compile-failure path the
removal is awaited without a guard, so a removal failure replaces the
compile result (the adapter rejects and the gateway's `catch` emits a
generic error instead of the `run-result`); with the removal
succeeding, the very same host yields the compile step's result. -/
theorem rmFailureOverridesResult :
    runJava javacFailHost false = .error () ∧
    runJava javacFailHost true =
      .ok { result := limitedSpawn (javacFailHost "javac"),
            spawned := ["javac"], rmRuns := 1 } := by
  constructor
  · decide
  · decide

/-! ### RoomRegistry invariant: no empty room survives an event -/

theorem touchLastSeen_ne_nil (participants : List (String × Participant)) (sid : String)
    (now : Nat) (h : participants ≠ []) : touchLastSeen participants sid now ≠ [] := by
  unfold touchLastSeen
  cases hp : mapGet participants sid with
  | none => simp only [hp]; exact h
  | some p => simp only [hp]; exact mapSet_ne_nil _ _ _

theorem joinRoom_preserves (s : ServerState) (sid : String) (roomId? username? : Option String)
    (now : Nat) (h : RoomsNonempty s) :
    RoomsNonempty (joinRoom s sid roomId? username? now).1 := by
  cases roomId? with
  | none => exact h
  | some roomId =>
      cases username? with
      | none => exact h
      | some username =>
          by_cases hval : roomId = "" ∨ username = ""
          · simpa [joinRoom, hval] using h
          · intro e he
            simp only [joinRoom, if_neg hval] at he
            rcases mem_mapSet he with rfl | hmem
            · exact mapSet_ne_nil _ _ _
            · exact h e hmem

theorem codeChange_preserves (s : ServerState) (sid : String)
    (roomId? code? language? : Option String) (now : Nat) (h : RoomsNonempty s) :
    RoomsNonempty (codeChange s sid roomId? code? language? now).1 := by
  cases roomId? with
  | none => exact h
  | some roomId =>
      cases hr : mapGet s.rooms roomId with
      | none => simpa [codeChange, hr] using h
      | some room =>
          intro e he
          simp only [codeChange, hr] at he
          rcases mem_mapSet he with rfl | hmem
          · exact touchLastSeen_ne_nil _ _ _ (h (roomId, room) (mapGet_mem hr))
          · exact h e hmem

theorem languageChange_preserves (s : ServerState) (sid : String)
    (roomId? language? : Option String) (now : Nat) (h : RoomsNonempty s) :
    RoomsNonempty (languageChange s sid roomId? language? now).1 := by
  cases roomId? with
  | none => exact h
  | some roomId =>
      cases hr : mapGet s.rooms roomId with
      | none => simpa [languageChange, hr] using h
      | some room =>
          intro e he
          simp only [languageChange, hr] at he
          rcases mem_mapSet he with rfl | hmem
          · exact h (roomId, room) (mapGet_mem hr)
          · exact h e hmem

theorem removeFromRooms_preserves (sid : String) (now : Nat) :
    ∀ l : List (String × Room), (∀ e ∈ l, e.2.participants ≠ []) →
      ∀ e ∈ (removeFromRooms sid now l).1, e.2.participants ≠ [] := by
  intro l
  induction l with
  | nil =>
      intro _ e he
      simp [removeFromRooms] at he
  | cons hd t ih =>
      intro hl e he
      have ht : ∀ x ∈ t, x.2.participants ≠ [] :=
        fun x hx => hl x (List.mem_cons_of_mem _ hx)
      cases hp : mapGet hd.2.participants sid with
      | none =>
          simp only [removeFromRooms, hp, List.mem_cons] at he
          rcases he with rfl | he
          · exact hl _ (List.mem_cons_self _ _)
          · exact ih ht e he
      | some p =>
          cases hempty : (mapDel hd.2.participants sid).isEmpty with
          | true =>
              simp only [removeFromRooms, hp, hempty] at he
              exact ih ht e he
          | false =>
              simp only [removeFromRooms, hp, hempty] at he
              cases he with
              | head => exact ne_nil_of_isEmpty_false hempty
              | tail b he => exact ih ht e he

theorem disconnect_preserves (s : ServerState) (sid : String) (now : Nat)
    (h : RoomsNonempty s) : RoomsNonempty (disconnectHandler s sid now).1 := by
  intro e he
  exact removeFromRooms_preserves sid now s.rooms h e he

theorem sweep_preserves (s : ServerState) (now : Nat) (h : RoomsNonempty s) :
    RoomsNonempty { s with rooms := cleanupInactiveRooms s.rooms now } := by
  intro e he
  simp only [cleanupInactiveRooms] at he
  exact h e (List.mem_filter.mp he).1

theorem step_preserves (s : ServerState) (e : Event) (now : Nat) (h : RoomsNonempty s) :
    RoomsNonempty (step s e now).1 := by
  cases e with
  | connect sid => exact h
  | joinRoomEv sid roomId? username? => exact joinRoom_preserves s sid roomId? username? now h
  | codeChangeEv sid roomId? code? language? =>
      exact codeChange_preserves s sid roomId? code? language? now h
  | languageChangeEv sid roomId? language? =>
      exact languageChange_preserves s sid roomId? language? now h
  | runCodeEv sid roomId? code? language? host rmOk dur => exact h
  | disconnectEv sid => exact disconnect_preserves s sid now h
  | pingEv sid => exact h
  | sweepEv => exact sweep_preserves s now h

theorem execTrace_RoomsNonempty (tr : List (Event × Nat)) :
    RoomsNonempty (execTrace tr) := by
  have main : ∀ (l : List (Event × Nat)) (s : ServerState), RoomsNonempty s →
      RoomsNonempty (l.foldl (fun s p => (step s p.1 p.2).1) s) := by
    intro l
    induction l with
    | nil => intro s h; exact h
    | cons p rest ih => intro s h; exact ih _ (step_preserves s p.1 p.2 h)
  exact main tr initialState (by intro e he; simp [initialState] at he)

/-- Claim C1: along every event trace from server start, the registry
never holds a room with an empty participant set — a room emptied by a
leave/disconnect is deleted within that same event, never deferred to
the hourly sweep. -/
theorem emptyRoomsDeletedSynchronously (tr : List (Event × Nat)) :
    registryHasEmptyRoom (execTrace tr) = false := by
  have h := execTrace_RoomsNonempty tr
  unfold registryHasEmptyRoom
  rw [List.any_eq_false]
  intro e he
  simp [isEmpty_false_of_ne_nil (h e he)]

/-- Counterexample to C2 as stated: after connection A re-joins from R1
into R2, its participant record is still present in R1's participant
set in the registry (the `join-room` handler only leaves the transport
room, it never deletes the registry record of the prior room), even
though A's transport membership is now exactly R2. -/
theorem joinLeavesStaleParticipantRecord :
    ((mapGet (execTrace trC2).rooms "R1").bind (fun r => mapGet r.participants "A")) =
      some { id := "A", username := "ann", joinedAt := 1, lastSeen := 1 } ∧
    ((mapGet (execTrace trC2).sockets "A").map (fun st => st.joinedRooms)) = some ["R2"] := by
  constructor
  · decide
  · decide

/-- Claim C2 (amended): a successful `join-room` into room B makes B
the connection's only transport room (so broadcasts reach it through at
most one room at a time), and leaves every other room's registry state
— including a stale participant record of this connection — untouched;
the registry record of a prior room is removed only on disconnect. -/
theorem joinRoomTransportExclusive (s : ServerState) (sid roomId username : String)
    (info : SocketState) (now : Nat) (hrid : roomId ≠ "") (hun : username ≠ "")
    (hs : mapGet s.sockets sid = some info) :
    mapGet (joinRoom s sid (some roomId) (some username) now).1.sockets sid =
      some { info with joinedRooms := [roomId] } ∧
    ∀ rid : String, rid ≠ roomId →
      mapGet (joinRoom s sid (some roomId) (some username) now).1.rooms rid =
        mapGet s.rooms rid := by
  have hval : ¬(roomId = "" ∨ username = "") := by
    rintro (h | h)
    exacts [hrid h, hun h]
  constructor
  · simp only [joinRoom, if_neg hval]
    rw [mapGet_mapAdjust, hs]
    rfl
  · intro rid hne
    simp only [joinRoom, if_neg hval]
    exact mapGet_mapSet_ne _ _ _ _ hne

/-- Witness for C2 (amended): a fresh connection A joining R1 ends with
transport rooms exactly `[R1]`, and unrelated registry keys are
untouched. -/
theorem joinRoomTransportExclusive_witness :
    mapGet (joinRoom stJoin1 "A" (some "R1") (some "ann") 5).1.sockets "A" =
      some { connectedAt := 0, joinedRooms := ["R1"] } ∧
    mapGet (joinRoom stJoin1 "A" (some "R1") (some "ann") 5).1.rooms "R9" =
      mapGet stJoin1.rooms "R9" := by
  have th := joinRoomTransportExclusive stJoin1 "A" "R1" "ann"
    { connectedAt := 0, joinedRooms := [] } 5 (by decide) (by decide) (by decide)
  exact ⟨th.1, th.2 "R9" (by decide)⟩

/-- Counterexample to C3 as stated: two inbound events with a missing
or degenerate required field do touch state.  A `language-change` with
a missing `language` on an existing room overwrites the room's language
with the missing value, touches `lastActivity`, and broadcasts a
`language-update` (no sender-only error); and a `join-room` with a
whitespace-only username passes the truthiness validation and stores a
participant whose trimmed username is empty. -/
theorem languageChangeSkipsValidation :
    ((mapGet stC3.rooms "R1").map (fun r => r.language) = some (some "javascript")) ∧
    ((mapGet (languageChange stC3 "A" (some "R1") none 10).1.rooms "R1").map
        (fun r => r.language) = some none) ∧
    ((languageChange stC3 "A" (some "R1") none 10).2 =
      [.toRoomExceptSender "R1" "A" (.languageUpdate none "ann")]) ∧
    (((mapGet (joinRoom stC3b "C" (some "R9") (some " ") 5).1.rooms "R9").bind
        (fun r => mapGet r.participants "C")).map (fun p => p.username) = some "") := by
  refine ⟨by decide, by decide, by decide, by decide⟩

/-- Claim C3 (amended): `join-room` validates its required fields by JS
truthiness and a failure yields a sender-only error with the state
untouched; but the validation is only truthiness-deep: a
whitespace-only username passes `join-room` and is stored trimmed
(possibly empty), and `language-change` does not validate `language` at
all — the raw, possibly missing field is written into the room and
broadcast. -/
theorem validationSenderOnlyError :
    (∀ (s : ServerState) (sid : String) (roomId? username? : Option String) (now : Nat),
        (match roomId?, username? with
         | some roomId, some username => roomId = "" ∨ username = ""
         | _, _ => True) →
        joinRoom s sid roomId? username? now =
          (s, [.toSender sid (.errorMsg "Room ID and username are required")])) ∧
    (∀ (s : ServerState) (sid roomId : String) (room : Room) (language? : Option String)
        (now : Nat), mapGet s.rooms roomId = some room →
        languageChange s sid (some roomId) language? now =
          ({ s with rooms := mapSet s.rooms roomId { room with
              language := language?, lastActivity := now } },
           [.toRoomExceptSender roomId sid
              (.languageUpdate language? (displayName (mapGet room.participants sid)))])) ∧
    (∀ (s : ServerState) (sid roomId username : String) (now : Nat),
        roomId ≠ "" → username ≠ "" →
        ((mapGet (joinRoom s sid (some roomId) (some username) now).1.rooms roomId).bind
          (fun r => mapGet r.participants sid)).map (fun p => p.username) =
            some (trimString username)) := by
  refine ⟨?_, ?_, ?_⟩
  · intro s sid roomId? username? now hval
    cases roomId? with
    | none => rfl
    | some roomId =>
        cases username? with
        | none => rfl
        | some username =>
            simp only [joinRoom]
            rw [if_pos hval]
  · intro s sid roomId room language? now hr
    simp [languageChange, hr]
  · intro s sid roomId username now h1 h2
    have hval : ¬(roomId = "" ∨ username = "") := by
      rintro (h | h)
      exacts [h1 h, h2 h]
    simp [joinRoom, if_neg hval, mapGet_mapSet_self]

/-- Witness for C3 (amended): an empty roomId is rejected sender-only;
a language-change on R1 writes the raw field through; a whitespace
username is stored trimmed. -/
theorem validationSenderOnlyError_witness :
    joinRoom stC3b "C" (some "") (some "x") 3 =
      (stC3b, [.toSender "C" (.errorMsg "Room ID and username are required")]) ∧
    languageChange stC3 "A" (some "R1") (some "python") 10 =
      ({ stC3 with rooms := mapSet stC3.rooms "R1" { roomC3 with
          language := some "python", lastActivity := 10 } },
       [.toRoomExceptSender "R1" "A"
          (.languageUpdate (some "python") (displayName (mapGet roomC3.participants "A")))]) ∧
    ((mapGet (joinRoom stC3b "C" (some "R9") (some "   ") 7).1.rooms "R9").bind
      (fun r => mapGet r.participants "C")).map (fun p => p.username) =
        some (trimString "   ") :=
  ⟨validationSenderOnlyError.1 stC3b "C" (some "") (some "x") 3 (Or.inl rfl),
   validationSenderOnlyError.2.1 stC3 "A" "R1" roomC3 (some "python") 10 rfl,
   validationSenderOnlyError.2.2 stC3b "C" "R9" "   " 7 (by decide) (by decide)⟩

/-- Membership in the delivery set of a sender-excluding room
broadcast, unfolded to transport membership. -/
theorem mem_recipients_exceptSender {s' : ServerState} {rid sd x : String} {p : Payload} :
    x ∈ recipientsList s' (.toRoomExceptSender rid sd p) ↔
      x ≠ sd ∧ ∃ info : SocketState, (x, info) ∈ s'.sockets ∧ rid ∈ info.joinedRooms := by
  simp only [recipientsList, List.mem_map, List.mem_filter, Bool.and_eq_true, bne_iff_ne]
  constructor
  · rintro ⟨e, ⟨hmem, hcont, hne⟩, heq⟩
    refine ⟨heq ▸ hne, e.2, ?_, by simpa using hcont⟩
    have : (x, e.2) = e := by
      cases e
      cases heq
      rfl
    rw [this]
    exact hmem
  · rintro ⟨hne, info, hmem, hrid⟩
    exact ⟨(x, info), ⟨hmem, by simpa using hrid, hne⟩, rfl⟩

/-- Claim C4 (amended): a `code-change` on an existing room applies
exactly the supplied fields (last-writer-wins) and emits one broadcast
that is delivered to every connection transport-joined to the room
except the sender — never to the sender itself.  A registry participant
whose connection has since transport-joined another room does not
receive it (see the counterexample). -/
theorem codeChangeBroadcastSenderExcluded (s : ServerState) (sid roomId : String) (room : Room)
    (code? language? : Option String) (now : Nat)
    (hr : mapGet s.rooms roomId = some room) :
    (codeChange s sid (some roomId) code? language? now).1 =
      { s with rooms := mapSet s.rooms roomId { room with
          code := lwwCode code? room.code,
          language := lwwLanguage language? room.language,
          lastActivity := now,
          participants := touchLastSeen room.participants sid now } } ∧
    (codeChange s sid (some roomId) code? language? now).2 =
      [.toRoomExceptSender roomId sid (.codeUpdate (lwwCode code? room.code)
        (lwwLanguage language? room.language)
        (displayName (mapGet room.participants sid)))] ∧
    (∀ (s' : ServerState) (rid sd : String) (p : Payload) (x : String),
        x ∈ recipientsList s' (.toRoomExceptSender rid sd p) ↔
          x ≠ sd ∧ ∃ info : SocketState, (x, info) ∈ s'.sockets ∧ rid ∈ info.joinedRooms) ∧
    (∀ (s' : ServerState) (rid sd : String) (p : Payload),
        sd ∉ recipientsList s' (.toRoomExceptSender rid sd p)) := by
  refine ⟨?_, ?_, ?_, ?_⟩
  · simp [codeChange, hr]
  · simp [codeChange, hr]
  · intro s' rid sd p x
    exact mem_recipients_exceptSender
  · intro s' rid sd p hmem
    exact (mem_recipients_exceptSender.mp hmem).1 rfl

/-- Witness for C4 (amended), at the stale-participant state: the
update and the single sender-excluded broadcast of the R1 room. -/
theorem codeChangeBroadcastSenderExcluded_witness :
    (codeChange stC4 "A" (some "R1") (some "x = 1") none 9).1 =
      { stC4 with rooms := mapSet stC4.rooms "R1" { roomC4 with
          code := lwwCode (some "x = 1") roomC4.code,
          language := lwwLanguage none roomC4.language,
          lastActivity := 9,
          participants := touchLastSeen roomC4.participants "A" 9 } } ∧
    (codeChange stC4 "A" (some "R1") (some "x = 1") none 9).2 =
      [.toRoomExceptSender "R1" "A" (.codeUpdate (lwwCode (some "x = 1") roomC4.code)
        (lwwLanguage none roomC4.language)
        (displayName (mapGet roomC4.participants "A")))] := by
  have th := codeChangeBroadcastSenderExcluded stC4 "A" "R1" roomC4 (some "x = 1") none 9 rfl
  exact ⟨th.1, th.2.1⟩

/-- Counterexample to C4 as stated: in `stC4`, connection B is still a
registry participant of R1 (stale record) but is transport-joined only
to R2, so A's `code-update` broadcast on R1 is delivered to nobody —
in particular not to participant B ≠ A. -/
theorem codeUpdateMissesStaleParticipant :
    (((mapGet stC4.rooms "R1").bind (fun r => mapGet r.participants "B")).isSome = true) ∧
    ((codeChange stC4 "A" (some "R1") (some "x = 1") none 9).2 =
      [.toRoomExceptSender "R1" "A" (.codeUpdate "x = 1" (some "javascript") "ann")]) ∧
    (recipientsList (codeChange stC4 "A" (some "R1") (some "x = 1") none 9).1
        (.toRoomExceptSender "R1" "A" (.codeUpdate "x = 1" (some "javascript") "ann")) = []) := by
  refine ⟨by decide, by decide, by decide⟩

/-- Claim C10: a `code-change` naming an existing room is applied and
broadcast even when the sender holds no participant record in that
room: the buffer/language are overwritten last-writer-wins,
`lastActivity` is touched (participants untouched), and the broadcast's
`updatedBy` falls back to `'Unknown'`. -/
theorem codeChangeWithoutMembership (s : ServerState) (sid roomId : String) (room : Room)
    (code? language? : Option String) (now : Nat)
    (hr : mapGet s.rooms roomId = some room)
    (hnp : mapGet room.participants sid = none) :
    (codeChange s sid (some roomId) code? language? now).1 =
      { s with rooms := mapSet s.rooms roomId { room with
          code := lwwCode code? room.code,
          language := lwwLanguage language? room.language,
          lastActivity := now } } ∧
    (codeChange s sid (some roomId) code? language? now).2 =
      [.toRoomExceptSender roomId sid (.codeUpdate (lwwCode code? room.code)
        (lwwLanguage language? room.language) "Unknown")] := by
  constructor
  · simp [codeChange, hr, touchLastSeen, hnp]
  · simp [codeChange, hr, displayName, hnp]

/-- Witness for C10: connected socket A, which never joined R1, edits
R1; the room is mutated and the broadcast says `'Unknown'`. -/
theorem codeChangeWithoutMembership_witness :
    (codeChange stC10 "A" (some "R1") (some "y") (some "python") 9).1 =
      { stC10 with rooms := mapSet stC10.rooms "R1" { roomC10 with
          code := lwwCode (some "y") roomC10.code,
          language := lwwLanguage (some "python") roomC10.language,
          lastActivity := 9 } } ∧
    (codeChange stC10 "A" (some "R1") (some "y") (some "python") 9).2 =
      [.toRoomExceptSender "R1" "A" (.codeUpdate (lwwCode (some "y") roomC10.code)
        (lwwLanguage (some "python") roomC10.language) "Unknown")] :=
  codeChangeWithoutMembership stC10 "A" "R1" roomC10 (some "y") (some "python") 9
    rfl (by decide)

end CodeSync
